import Mathlib

/-!
# Failure Report Generator — shallow embedding

A shallow embedding of `src/log_instruction_generator.py`, the log-triage
helper that scans a failure log for known error signatures, optionally asks an
external language-model service for a summary, and assembles a bounded report.

Modelling conventions:
* Python strings are Lean `String`s; character-level work happens on `.data`.
* `re.search(pattern, log, re.IGNORECASE)` for the literal patterns is
  case-insensitive substring search (ASCII case folding, matching the ASCII
  letters of every pattern in the table).
* The single parametric regex `Task failed with exit status (\d+)` is the
  literal prefix followed by a greedy nonempty run of decimal digits; `scanExit`
  reproduces `re.search`'s leftmost-match behaviour for it.
* `os.getenv("OPENAI_API_KEY")` is an explicit `Option String` argument; the
  outcome of `openai.ChatCompletion.create` is an explicit
  `Except String PyVal` argument (`error e` = the call raised, with message
  `e`; `ok v` = it returned the Python value `v`).  The subscript chain
  `response["choices"][0]["message"]["content"]` is evaluated *outside* the
  `try` block in the source, so a failure of that chain is modelled as the
  embedded function returning `Except.error` (an uncaught Python exception).
* `str.splitlines` is modelled on the `\n` line boundary (the only boundary
  character occurring in the program's own strings), with Python's rule that a
  trailing boundary does not contribute an empty final line.
-/

/-- The pattern-table messages, in the source's insertion order
(`PATTERNS`, lines 13–20). -/
def oomMsg : String :=
  "The Spark job ran out of memory. Increase executor memory or reduce data size."

def spaceMsg : String :=
  "The cluster does not have enough disk space. Free up space or use a larger instance."

def permMsg : String :=
  "A file or directory could not be accessed due to permission issues. Check IAM roles and file permissions."

def connMsg : String :=
  "Spark could not connect to a required service. Verify network settings and service endpoints."

def sparkMsg : String :=
  "Spark reported a generic error. Inspect earlier log entries for a more specific cause."

def exitMsg : String :=
  "A Spark task failed. Review the executor logs for stack traces and memory errors."

/-- The literal part of the parametric regex `Task failed with exit status (\d+)`. -/
def exitLit : String := "Task failed with exit status "

/-- The replacement target string `"(\\d+)"` passed to `str.replace`
(line 31 of the source). -/
def exitGroupLit : String := "(\\d+)"

/-- Returned by `_chatgpt_analysis` when no API key is configured (line 41). -/
def skippedMsg : String := "OpenAI API key not configured; skipping ChatGPT analysis."

/-- The generic fallback instruction (lines 96–99). -/
def fallbackMsg : String :=
  "Could not determine a specific cause. Check the stack trace and verify Spark configuration, resource allocation, and input data."

/-- The unconditional closing guidance line (lines 101–104). -/
def closingMsg : String :=
  "For more detailed analysis, review the full executor logs and Airflow task output around the failure time."

/-- The sentinel for empty input (line 86). -/
def noLogMsg : String := "No log information provided."

/-- ASCII lowering of a character list, modelling Python case-insensitivity for
the ASCII patterns of the table. -/
def lowerC (cs : List Char) : List Char := cs.map Char.toLower

/-- `needle` occurs as a contiguous sublist of the second argument;
models `re.search` for a literal (metacharacter-free) pattern. -/
def containsSub (needle : List Char) : List Char → Bool
  | [] => needle.isEmpty
  | c :: rest => needle.isPrefixOf (c :: rest) || containsSub needle rest

/-- Case-insensitive literal search: `re.search(pat, log, re.IGNORECASE)`. -/
def ciContains (hay needle : List Char) : Bool :=
  containsSub (lowerC needle) (lowerC hay)

/-- Try the parametric regex at one position: the literal prefix `p` followed by
a greedy nonempty digit run; returns the captured digits. -/
def matchExitAt (p cs : List Char) : Option (List Char) :=
  if p.isPrefixOf cs then
    let ds := (cs.drop p.length).takeWhile Char.isDigit
    if ds.isEmpty then none else some ds
  else none

/-- Leftmost match of the parametric regex: `re.search` semantics for
`p(\d+)` with `p` a literal. -/
def scanExit (p : List Char) : List Char → Option (List Char)
  | [] => none
  | c :: rest =>
    match matchExitAt p (c :: rest) with
    | some ds => some ds
    | none => scanExit p rest

/-- `str.replace`: replace every non-overlapping occurrence of `pat`, scanning
left to right.  The `Nat` argument counts characters still to skip after an
accepted match. -/
def replaceAllAux (pat rep : List Char) : Nat → List Char → List Char
  | _, [] => []
  | Nat.succ k, _ :: rest => replaceAllAux pat rep k rest
  | 0, c :: rest =>
    if pat ≠ [] ∧ pat.isPrefixOf (c :: rest) then
      rep ++ replaceAllAux pat rep (pat.length - 1) rest
    else
      c :: replaceAllAux pat rep 0 rest

/-- `s.replace(pat, rep)` on character lists (for nonempty `pat`, the only
shape the source uses). -/
def replaceAll (pat rep cs : List Char) : List Char := replaceAllAux pat rep 0 cs

/-- One non-parametric row of the `PATTERNS` loop body (lines 26–27, 32–33):
emit the message iff the pattern occurs case-insensitively. -/
def litBranch (log : String) (pat msg : String) : List String :=
  if ciContains log.data pat.data then [msg] else []

/-- The parametric row (lines 27–31): if the case-insensitive search succeeds,
re-run the search case-sensitively; only when that second search also succeeds
is the message appended, with `msg.replace("(\\d+)", match.group(1))`. -/
def exitBranch (log : String) : List String :=
  if (scanExit (lowerC exitLit.data) (lowerC log.data)).isSome then
    match scanExit exitLit.data log.data with
    | some ds => [String.mk (replaceAll exitGroupLit.data ds exitMsg.data)]
    | none => []
  else []

/-- `_match_patterns` (lines 23–34): the six table rows in insertion order. -/
def _match_patterns (log : String) : List String :=
  litBranch log "OutOfMemoryError" oomMsg ++
  litBranch log "No space left on device" spaceMsg ++
  litBranch log "Permission denied" permMsg ++
  litBranch log "Connection refused" connMsg ++
  litBranch log "SparkException" sparkMsg ++
  exitBranch log

/-- Split a character list at `\n` boundaries; a trailing boundary yields a
trailing empty piece (join-inverse form, used to read lines off a report). -/
def splitNlC : List Char → List (List Char)
  | [] => [[]]
  | c :: rest =>
    if c = '\n' then [] :: splitNlC rest
    else
      match splitNlC rest with
      | [] => [[c]]
      | h :: t => (c :: h) :: t

/-- `str.splitlines` on the `\n` boundary: like `splitNlC` but empty input
gives no lines and a trailing boundary does not add an empty final line. -/
def splitlinesC (cs : List Char) : List (List Char) :=
  match cs with
  | [] => []
  | _ =>
    let p := splitNlC cs
    if p.getLast? = some [] then p.dropLast else p

/-- Python whitespace stripped by `str.strip` (ASCII subset). -/
def isPySpace (c : Char) : Bool :=
  c = ' ' || c = '\t' || c = '\n' || c = '\r' || c = '\x0b' || c = '\x0c'

/-- `str.strip()`: drop leading and trailing whitespace. -/
def stripC (cs : List Char) : List Char :=
  ((cs.dropWhile isPySpace).reverse.dropWhile isPySpace).reverse

/-- `"\n".join` on character lists. -/
def joinNlC : List (List Char) → List Char
  | [] => []
  | [x] => x
  | x :: y :: ys => x ++ '\n' :: joinNlC (y :: ys)

/-- `"\n".join` on strings. -/
def joinNl (L : List String) : String := String.mk (joinNlC (L.map String.data))

/-- The lines of a report, split at `\n` separators (the claims' reading of
"split at newline separators"). -/
def reportLines (s : String) : List String := (splitNlC s.data).map String.mk

/-- A Python value, as far as the response-parsing chain
`response["choices"][0]["message"]["content"]` needs: strings, lists and
string-keyed dicts. -/
inductive PyVal where
  | str : String → PyVal
  | vlist : List PyVal → PyVal
  | dict : List (String × PyVal) → PyVal

/-- `v[k]` for a dict; any other shape raises in Python, modelled as `none`. -/
def getItem (v : PyVal) (k : String) : Option PyVal :=
  match v with
  | PyVal.dict entries => List.lookup k entries
  | _ => none

/-- `v[i]` for a list; any other shape raises in Python, modelled as `none`. -/
def indexAt (v : PyVal) (i : Nat) : Option PyVal :=
  match v with
  | PyVal.vlist xs => xs[i]?
  | _ => none

/-- The value, if it is a string (`.strip()` on anything else raises). -/
def asStr (v : PyVal) : Option String :=
  match v with
  | PyVal.str s => some s
  | _ => none

/-- The subscript chain `response["choices"][0]["message"]["content"]` of
line 63; `none` means the chain raises in Python. -/
def extractContent (resp : PyVal) : Option String :=
  ((((getItem resp "choices").bind (fun c => indexAt c 0)).bind
      (fun m => getItem m "message")).bind
    (fun m => getItem m "content")).bind asStr

/-- Truthiness of the `OPENAI_API_KEY` environment value: `if not api_key`
is taken when the variable is unset or empty (line 40). -/
def keyTruthy : Option String → Bool
  | none => false
  | some s => !s.isEmpty

/-- `_chatgpt_analysis` (lines 37–64).  `apiKey` is `os.getenv("OPENAI_API_KEY")`;
`call` is the outcome of `openai.ChatCompletion.create`.  The `Except.error`
result models the uncaught exception raised when the response lacks the
`choices/message/content` structure: line 63 sits outside the `try` block. -/
def _chatgpt_analysis (log : String) (apiKey : Option String)
    (call : Except String PyVal) : Except String String :=
  if keyTruthy apiKey then
    match call with
    | Except.error exc => Except.ok ("ChatGPT request failed: " ++ exc)
    | Except.ok resp =>
      match extractContent resp with
      | none => Except.error "uncaught exception: response missing choices/message/content"
      | some content =>
        Except.ok (joinNl (((splitlinesC (stripC content.data)).take 50).map String.mk))
  else
    Except.ok skippedMsg

/-- Lines 95–99: append the generic fallback iff the accumulated list is
still empty. -/
def withFallback (l : List String) : List String :=
  if l = [] then l ++ [fallbackMsg] else l

/-- `generate_failure_report` (lines 67–109): empty-input sentinel, pattern
matches, external-analysis lines, fallback, closing line, truncation to 50,
newline join.  An `Except.error` result models the exception propagating out
of `_chatgpt_analysis` (the source calls it without a handler, line 92). -/
def generate_failure_report (log : String) (apiKey : Option String)
    (call : Except String PyVal) : Except String String :=
  if log = "" then
    Except.ok noLogMsg
  else
    match _chatgpt_analysis log apiKey call with
    | Except.error e => Except.error e
    | Except.ok analysis =>
      Except.ok (joinNl
        ((withFallback
            (_match_patterns log ++ (splitlinesC analysis.data).map String.mk)
          ++ [closingMsg]).take 50))

/-! ## Helper lemmas -/

theorem splitNlC_ne_nil : ∀ cs : List Char, splitNlC cs ≠ [] := by
  intro cs
  induction cs with
  | nil => simp [splitNlC]
  | cons c rest ih =>
    unfold splitNlC
    by_cases hc : c = '\n'
    · rw [if_pos hc]; simp
    · rw [if_neg hc]
      cases hs : splitNlC rest with
      | nil => exact absurd hs ih
      | cons h t => simp

theorem nlFree_splitNlC : ∀ cs : List Char, '\n' ∉ cs → splitNlC cs = [cs] := by
  intro cs
  induction cs with
  | nil => intro _; rfl
  | cons c rest ih =>
    intro h
    have hc : c ≠ '\n' := by rintro rfl; exact h (List.mem_cons_self _ _)
    have hr : '\n' ∉ rest := fun hm => h (List.mem_cons_of_mem _ hm)
    unfold splitNlC
    rw [if_neg hc, ih hr]

theorem splitNlC_append_nl : ∀ (x r : List Char), '\n' ∉ x →
    splitNlC (x ++ '\n' :: r) = x :: splitNlC r := by
  intro x
  induction x with
  | nil =>
    intro r _
    simp only [List.nil_append]
    show splitNlC ('\n' :: r) = [] :: splitNlC r
    simp only [splitNlC]
    rw [if_pos trivial]
  | cons c x' ih =>
    intro r h
    have hc : c ≠ '\n' := by rintro rfl; exact h (List.mem_cons_self _ _)
    have hx : '\n' ∉ x' := fun hm => h (List.mem_cons_of_mem _ hm)
    show splitNlC (c :: (x' ++ '\n' :: r)) = (c :: x') :: splitNlC r
    simp only [splitNlC]
    rw [if_neg hc, ih r hx]

theorem splitNlC_joinNlC : ∀ L : List (List Char), L ≠ [] →
    (∀ x ∈ L, '\n' ∉ x) → splitNlC (joinNlC L) = L := by
  intro L
  induction L with
  | nil => intro h; exact absurd rfl h
  | cons x t ih =>
    intro _ hnl
    cases t with
    | nil =>
      show splitNlC (joinNlC [x]) = [x]
      rw [show joinNlC [x] = x from rfl,
        nlFree_splitNlC x (hnl x (List.mem_cons_self _ _))]
    | cons y ys =>
      show splitNlC (joinNlC (x :: y :: ys)) = x :: y :: ys
      rw [show joinNlC (x :: y :: ys) = x ++ '\n' :: joinNlC (y :: ys) from rfl,
        splitNlC_append_nl x _ (hnl x (List.mem_cons_self _ _)),
        ih (by simp) (fun z hz => hnl z (List.mem_cons_of_mem _ hz))]

theorem reportLines_joinNl (L : List String) (h1 : L ≠ [])
    (h2 : ∀ x ∈ L, '\n' ∉ x.data) : reportLines (joinNl L) = L := by
  unfold reportLines joinNl
  rw [show (String.mk (joinNlC (L.map String.data))).data
      = joinNlC (L.map String.data) from rfl,
    splitNlC_joinNlC (L.map String.data) (by simpa using h1)
      (by intro x hx; rcases List.mem_map.1 hx with ⟨s, hs, rfl⟩; exact h2 s hs),
    List.map_map,
    show (String.mk ∘ String.data) = id from funext fun s => rfl,
    List.map_id]

theorem mem_splitNlC : ∀ (cs p : List Char), p ∈ splitNlC cs → '\n' ∉ p := by
  intro cs
  induction cs with
  | nil =>
    intro p hp
    simp only [splitNlC, List.mem_singleton] at hp
    subst hp; simp
  | cons c rest ih =>
    intro p hp
    unfold splitNlC at hp
    by_cases hc : c = '\n'
    · rw [if_pos hc] at hp
      rcases List.mem_cons.1 hp with rfl | hp'
      · simp
      · exact ih p hp'
    · rw [if_neg hc] at hp
      cases hs : splitNlC rest with
      | nil => exact absurd hs (splitNlC_ne_nil rest)
      | cons h t =>
        rw [hs] at hp
        rcases List.mem_cons.1 hp with rfl | hp'
        · intro hm
          rcases List.mem_cons.1 hm with he | hm'
          · exact hc he.symm
          · exact ih h (by rw [hs]; exact List.mem_cons_self _ _) hm'
        · exact ih p (by rw [hs]; exact List.mem_cons_of_mem _ hp')

theorem mem_splitlinesC (cs p : List Char) (hp : p ∈ splitlinesC cs) : '\n' ∉ p := by
  cases cs with
  | nil => simp [splitlinesC] at hp
  | cons c rest =>
    unfold splitlinesC at hp
    simp only at hp
    split at hp
    · exact mem_splitNlC _ p (List.Sublist.subset (List.dropLast_sublist _) hp)
    · exact mem_splitNlC _ p hp

theorem replaceAllAux_of_not_contains (pat rep : List Char) :
    ∀ cs, containsSub pat cs = false → replaceAllAux pat rep 0 cs = cs := by
  intro cs
  induction cs with
  | nil => intro _; rfl
  | cons c rest ih =>
    intro h
    unfold containsSub at h
    rw [Bool.or_eq_false_iff] at h
    unfold replaceAllAux
    rw [if_neg (by intro hand; rw [h.1] at hand; exact absurd hand.2 (by decide)),
      ih h.2]

theorem replaceAll_exit (rep : List Char) :
    replaceAll exitGroupLit.data rep exitMsg.data = exitMsg.data :=
  replaceAllAux_of_not_contains exitGroupLit.data rep exitMsg.data (by decide)

theorem mem_litBranch {x log pat msg : String} (h : x ∈ litBranch log pat msg) :
    x = msg := by
  unfold litBranch at h
  split at h
  · simpa using h
  · simp at h

theorem mem_exitBranch {x log : String} (h : x ∈ exitBranch log) : x = exitMsg := by
  unfold exitBranch at h
  split at h
  · split at h
    · rw [List.mem_singleton] at h
      rw [h, replaceAll_exit]
    · simp at h
  · simp at h

theorem mem_tailBranches {x log : String}
    (h : x ∈ litBranch log "No space left on device" spaceMsg ++
      litBranch log "Permission denied" permMsg ++
      litBranch log "Connection refused" connMsg ++
      litBranch log "SparkException" sparkMsg ++ exitBranch log) :
    x = spaceMsg ∨ x = permMsg ∨ x = connMsg ∨ x = sparkMsg ∨ x = exitMsg := by
  simp only [List.mem_append] at h
  rcases h with (((h | h) | h) | h) | h
  · exact Or.inl (mem_litBranch h)
  · exact Or.inr (Or.inl (mem_litBranch h))
  · exact Or.inr (Or.inr (Or.inl (mem_litBranch h)))
  · exact Or.inr (Or.inr (Or.inr (Or.inl (mem_litBranch h))))
  · exact Or.inr (Or.inr (Or.inr (Or.inr (mem_exitBranch h))))

theorem mem_match_patterns {x log : String} (h : x ∈ _match_patterns log) :
    x = oomMsg ∨ x = spaceMsg ∨ x = permMsg ∨ x = connMsg ∨ x = sparkMsg ∨
      x = exitMsg := by
  unfold _match_patterns at h
  simp only [List.mem_append] at h
  rcases h with ((((h | h) | h) | h) | h) | h
  · exact Or.inl (mem_litBranch h)
  · exact Or.inr (Or.inl (mem_litBranch h))
  · exact Or.inr (Or.inr (Or.inl (mem_litBranch h)))
  · exact Or.inr (Or.inr (Or.inr (Or.inl (mem_litBranch h))))
  · exact Or.inr (Or.inr (Or.inr (Or.inr (Or.inl (mem_litBranch h)))))
  · exact Or.inr (Or.inr (Or.inr (Or.inr (Or.inr (mem_exitBranch h)))))

/-! ## Claim theorems -/

/-- C1 (counterexample): on the log
`"SparkException: Connection refused while accessing HDFS"` with no credential,
the first report line is the Connection-refused message, not the SparkException
message claimed to come first. -/
theorem C1_counterexample :
    generate_failure_report "SparkException: Connection refused while accessing HDFS"
        none (Except.error "unused")
      = Except.ok (joinNl [connMsg, sparkMsg, skippedMsg, closingMsg]) ∧
    (reportLines (joinNl [connMsg, sparkMsg, skippedMsg, closingMsg])).head?
      ≠ some sparkMsg :=
  ⟨rfl, by decide⟩

/-- C1 (amended): for that log with no credential, the report's lines are
exactly the Connection-refused message, then the SparkException message (the
pattern-table order), then the skipped-analysis line, then the closing
guidance line — with no generic fallback line. -/
theorem C1_report_line_order :
    generate_failure_report "SparkException: Connection refused while accessing HDFS"
        none (Except.error "unused")
      = Except.ok (joinNl [connMsg, sparkMsg, skippedMsg, closingMsg]) ∧
    reportLines (joinNl [connMsg, sparkMsg, skippedMsg, closingMsg])
      = [connMsg, sparkMsg, skippedMsg, closingMsg] :=
  ⟨rfl, by decide⟩

/-- C2 (counterexample): for the no-pattern log `"hello"` with no credential,
the report does not contain the generic fallback instruction — the
skipped-analysis line already makes the instruction list non-empty. -/
theorem C2_counterexample :
    generate_failure_report "hello" none (Except.error "unused")
      = Except.ok (joinNl [skippedMsg, closingMsg]) ∧
    fallbackMsg ∉ reportLines (joinNl [skippedMsg, closingMsg]) :=
  ⟨rfl, by decide⟩

/-- C2 (amended): for every log matching zero patterns, with no credential
configured, the report consists of exactly the skipped-analysis line followed
by the closing guidance line; the generic fallback never appears. -/
theorem C2_no_fallback_with_skipped_line (log : String) (call : Except String PyVal)
    (hne : log ≠ "") (hmp : _match_patterns log = []) :
    generate_failure_report log none call = Except.ok (joinNl [skippedMsg, closingMsg]) ∧
    reportLines (joinNl [skippedMsg, closingMsg]) = [skippedMsg, closingMsg] := by
  refine ⟨?_, by decide⟩
  unfold generate_failure_report
  rw [if_neg hne]
  have hchat : _chatgpt_analysis log none call = Except.ok skippedMsg := rfl
  rw [hchat]
  show Except.ok (joinNl ((withFallback
      (_match_patterns log ++ (splitlinesC skippedMsg.data).map String.mk)
    ++ [closingMsg]).take 50)) = _
  rw [hmp]
  rfl

theorem C2_no_fallback_with_skipped_line_witness :
    generate_failure_report "hello" none (Except.error "unused")
      = Except.ok (joinNl [skippedMsg, closingMsg]) ∧
    reportLines (joinNl [skippedMsg, closingMsg]) = [skippedMsg, closingMsg] :=
  C2_no_fallback_with_skipped_line "hello" (Except.error "unused")
    (by decide) (by decide)

/-- C3 (counterexample): a response missing the `choices/message/content`
structure makes `_chatgpt_analysis` raise (the subscript chain of line 63 sits
outside the `try` block), modelled as an `Except.error` result. -/
theorem C3_counterexample :
    _chatgpt_analysis "log" (some "key") (Except.ok (PyVal.dict []))
      = Except.error "uncaught exception: response missing choices/message/content" :=
  rfl

/-- C3 (amended): `_chatgpt_analysis` returns a string whenever the credential
is absent, the external call itself raised, or the response is well-formed
(the `choices/message/content` chain extracts a string); only a structurally
malformed response escapes as an exception. -/
theorem C3_adapter_total_on_raised_or_wellformed (log : String)
    (apiKey : Option String) (call : Except String PyVal)
    (h : keyTruthy apiKey = false ∨ (∃ e, call = Except.error e) ∨
      (∃ resp c, call = Except.ok resp ∧ extractContent resp = some c)) :
    ∃ s, _chatgpt_analysis log apiKey call = Except.ok s := by
  unfold _chatgpt_analysis
  by_cases hkey : keyTruthy apiKey = true
  · rw [if_pos hkey]
    rcases h with hk | ⟨e, he⟩ | ⟨resp, c, hr, hc⟩
    · rw [hk] at hkey; exact absurd hkey (by decide)
    · subst he; exact ⟨"ChatGPT request failed: " ++ e, rfl⟩
    · subst hr
      refine ⟨joinNl (((splitlinesC (stripC c.data)).take 50).map String.mk), ?_⟩
      dsimp only
      rw [hc]
  · rw [if_neg hkey]
    exact ⟨skippedMsg, rfl⟩

theorem C3_adapter_total_on_raised_or_wellformed_witness :
    ∃ s, _chatgpt_analysis "x" none (Except.error "boom") = Except.ok s :=
  C3_adapter_total_on_raised_or_wellformed "x" none (Except.error "boom")
    (Or.inl rfl)

/-- C5 (code evaluation at the failing input): for the log
`"Task failed with exit status 137"` the report is the verbatim exit-status
template (plus the skipped and closing lines) and contains no occurrence of
`"137"` — the template has no `(\d+)` placeholder, so the
`msg.replace("(\\d+)", match.group(1))` of line 31 is a no-op. -/
theorem C5_exit_status_code_never_substituted :
    generate_failure_report "Task failed with exit status 137" none
        (Except.error "unused")
      = Except.ok (joinNl [exitMsg, skippedMsg, closingMsg]) ∧
    containsSub "137".data (joinNl [exitMsg, skippedMsg, closingMsg]).data = false :=
  ⟨rfl, by decide⟩

/-- C7: when the case-insensitive search for the parametric exit-status rule
succeeds but the case-sensitive re-extraction returns nothing, the rule's
message is omitted from `_match_patterns` (the embedding is a total function,
so no exception can arise). -/
theorem C7_exit_rule_skipped_on_failed_reextraction (log : String)
    (hci : (scanExit (lowerC exitLit.data) (lowerC log.data)).isSome = true)
    (hcs : scanExit exitLit.data log.data = none) :
    exitMsg ∉ _match_patterns log := by
  intro hmem
  have hb : exitBranch log = [] := by
    unfold exitBranch
    rw [if_pos hci, hcs]
  unfold _match_patterns at hmem
  rw [hb, List.append_nil] at hmem
  simp only [List.mem_append] at hmem
  rcases hmem with (((h | h) | h) | h) | h <;>
    exact absurd (mem_litBranch h) (by decide)

theorem C7_exit_rule_skipped_on_failed_reextraction_witness :
    (scanExit (lowerC exitLit.data)
      (lowerC ("TASK FAILED WITH EXIT STATUS 137").data)).isSome = true ∧
    scanExit exitLit.data ("TASK FAILED WITH EXIT STATUS 137").data = none ∧
    exitMsg ∉ _match_patterns "TASK FAILED WITH EXIT STATUS 137" :=
  ⟨by decide, by decide,
    C7_exit_rule_skipped_on_failed_reextraction "TASK FAILED WITH EXIT STATUS 137"
      (by decide) (by decide)⟩

/-- C8: for the empty log, the report is exactly the sentinel line
`"No log information provided."`, whatever the credential and external call
outcome; pattern matching, analysis, fallback and closing line are skipped. -/
theorem C8_empty_log_sentinel (apiKey : Option String) (call : Except String PyVal) :
    generate_failure_report "" apiKey call = Except.ok noLogMsg ∧
    reportLines noLogMsg = [noLogMsg] :=
  ⟨rfl, by decide⟩

/-- C9: the report generator is a pure function of log text, credential
presence and external-call outcome (all effects are explicit arguments of the
embedding), so identical inputs give byte-identical output. -/
theorem C9_deterministic (log₁ log₂ : String) (key₁ key₂ : Option String)
    (call₁ call₂ : Except String PyVal)
    (hl : log₁ = log₂) (hk : key₁ = key₂) (hc : call₁ = call₂) :
    generate_failure_report log₁ key₁ call₁ = generate_failure_report log₂ key₂ call₂ := by
  subst hl; subst hk; subst hc; rfl

theorem C9_deterministic_witness :
    generate_failure_report "SparkException" none (Except.error "e")
      = generate_failure_report "SparkException" none (Except.error "e") :=
  C9_deterministic "SparkException" "SparkException" none none
    (Except.error "e") (Except.error "e") rfl rfl rfl

/-- C10: `"TASK FAILED WITH EXIT STATUS 137"` matches the exit-status rule
case-insensitively, but the case-sensitive re-extraction of line 29 finds
nothing, so `_match_patterns` produces no message at all for it. -/
theorem C10_case_sensitive_reextraction_mismatch :
    (scanExit (lowerC exitLit.data)
      (lowerC ("TASK FAILED WITH EXIT STATUS 137").data)).isSome = true ∧
    scanExit exitLit.data ("TASK FAILED WITH EXIT STATUS 137").data = none ∧
    _match_patterns "TASK FAILED WITH EXIT STATUS 137" = [] :=
  ⟨by decide, by decide, by decide⟩

theorem match_patterns_oom_cons {log : String}
    (hci : ciContains log.data ("OutOfMemoryError").data = true) :
    ∃ rest, _match_patterns log = oomMsg :: rest ∧
      ∀ x ∈ rest, x ≠ oomMsg ∧ '\n' ∉ x.data := by
  refine ⟨litBranch log "No space left on device" spaceMsg ++
      litBranch log "Permission denied" permMsg ++
      litBranch log "Connection refused" connMsg ++
      litBranch log "SparkException" sparkMsg ++ exitBranch log, ?_, ?_⟩
  · unfold _match_patterns
    rw [show litBranch log "OutOfMemoryError" oomMsg = [oomMsg] from by
      unfold litBranch; rw [if_pos hci]]
    simp [List.append_assoc]
  · intro x hx
    rcases mem_tailBranches hx with h' | h' | h' | h' | h' <;> subst h' <;>
      exact ⟨by decide, by decide⟩

/-- C4: whenever `generate_failure_report` returns a report, that report has at
most 50 newline-separated lines, for every log, credential and external-call
outcome — the instruction list is truncated to 50 entries, none of which
contains a newline. -/
theorem C4_report_at_most_50_lines (log : String) (apiKey : Option String)
    (call : Except String PyVal) (r : String)
    (h : generate_failure_report log apiKey call = Except.ok r) :
    (reportLines r).length ≤ 50 := by
  unfold generate_failure_report at h
  by_cases hl : log = ""
  · rw [if_pos hl] at h
    injection h with h
    rw [← h]
    decide
  · rw [if_neg hl] at h
    cases hcc : _chatgpt_analysis log apiKey call with
    | error e =>
      rw [hcc] at h
      exact Except.noConfusion
        (show (Except.error e : Except String String) = Except.ok r from h)
    | ok analysis =>
      rw [hcc] at h
      replace h : Except.ok (joinNl ((withFallback
          (_match_patterns log ++ (splitlinesC analysis.data).map String.mk)
        ++ [closingMsg]).take 50)) = Except.ok r := h
      injection h with h
      set L : List String := withFallback
        (_match_patterns log ++ (splitlinesC analysis.data).map String.mk)
        ++ [closingMsg] with hL
      have hlen : 0 < L.length := by
        rw [hL, List.length_append]
        simp
      have hne : L.take 50 ≠ [] := by
        intro hnil
        have hlt := congrArg List.length hnil
        rw [List.length_take] at hlt
        rcases Nat.min_eq_zero_iff.1 hlt with h' | h'
        · exact absurd h' (by decide)
        · omega
      have hnl : ∀ x ∈ L.take 50, '\n' ∉ x.data := by
        intro x hx
        have hx' : x ∈ L := List.take_subset _ _ hx
        rw [hL] at hx'
        rcases List.mem_append.1 hx' with hx1 | hx2
        · unfold withFallback at hx1
          split at hx1
          · rename_i hcond
            rcases List.mem_append.1 hx1 with hxa | hxb
            · rw [hcond] at hxa
              exact absurd hxa (List.not_mem_nil x)
            · rw [List.mem_singleton] at hxb; subst hxb; decide
          · rcases List.mem_append.1 hx1 with hm | he
            · rcases mem_match_patterns hm with h' | h' | h' | h' | h' | h' <;>
                subst h' <;> decide
            · rcases List.mem_map.1 he with ⟨p, hp, rfl⟩
              exact mem_splitlinesC _ p hp
        · rw [List.mem_singleton] at hx2; subst hx2; decide
      rw [← h, reportLines_joinNl _ hne hnl, List.length_take]
      exact Nat.min_le_left _ _

theorem C4_report_at_most_50_lines_witness :
    (reportLines (joinNl [skippedMsg, closingMsg])).length ≤ 50 :=
  C4_report_at_most_50_lines "hello" none (Except.error "e")
    (joinNl [skippedMsg, closingMsg]) rfl

/-- C6: for every log containing `"OutOfMemoryError"` case-insensitively
(however often), and every external-analysis outcome whose lines do not
themselves reproduce the message, the report contains the out-of-memory
remediation message as exactly one line: the rule fires once per table pass,
and the message heads the instruction list so truncation cannot drop it. -/
theorem C6_oom_message_exactly_once (log : String) (apiKey : Option String)
    (call : Except String PyVal) (analysis : String)
    (hchat : _chatgpt_analysis log apiKey call = Except.ok analysis)
    (hext : oomMsg ∉ (splitlinesC analysis.data).map String.mk)
    (hci : ciContains log.data ("OutOfMemoryError").data = true) :
    ∃ r, generate_failure_report log apiKey call = Except.ok r ∧
      (reportLines r).count oomMsg = 1 := by
  have hne : log ≠ "" := by
    rintro rfl
    exact absurd hci (by decide)
  obtain ⟨restL, hmp, hrestMem⟩ := match_patterns_oom_cons hci
  have hgen : generate_failure_report log apiKey call
      = Except.ok (joinNl (oomMsg ::
          (((restL ++ (splitlinesC analysis.data).map String.mk) ++ [closingMsg]).take 49))) := by
    unfold generate_failure_report
    rw [if_neg hne, hchat]
    show Except.ok (joinNl ((withFallback
        (_match_patterns log ++ (splitlinesC analysis.data).map String.mk)
      ++ [closingMsg]).take 50)) = _
    rw [hmp,
      show (oomMsg :: restL) ++ (splitlinesC analysis.data).map String.mk
        = oomMsg :: (restL ++ (splitlinesC analysis.data).map String.mk) from rfl,
      show withFallback (oomMsg :: (restL ++ (splitlinesC analysis.data).map String.mk))
        = oomMsg :: (restL ++ (splitlinesC analysis.data).map String.mk) from by
        unfold withFallback
        rw [if_neg (by simp)]]
    rfl
  have hnlF : ∀ x ∈ oomMsg ::
      (((restL ++ (splitlinesC analysis.data).map String.mk) ++ [closingMsg]).take 49),
      '\n' ∉ x.data := by
    intro x hx
    rcases List.mem_cons.1 hx with rfl | hx'
    · decide
    · have hxB := List.take_subset _ _ hx'
      rcases List.mem_append.1 hxB with hx1 | hx2
      · rcases List.mem_append.1 hx1 with hr | he
        · exact (hrestMem x hr).2
        · rcases List.mem_map.1 he with ⟨p, hp, rfl⟩
          exact mem_splitlinesC _ p hp
      · rw [List.mem_singleton] at hx2; subst hx2; decide
  have hlines := reportLines_joinNl _ (List.cons_ne_nil _ _) hnlF
  refine ⟨_, hgen, ?_⟩
  rw [hlines, List.count_cons_self]
  have hzero : (((restL ++ (splitlinesC analysis.data).map String.mk)
      ++ [closingMsg]).take 49).count oomMsg = 0 := by
    rw [List.count_eq_zero]
    intro hmem
    have hmem' := List.take_subset _ _ hmem
    rcases List.mem_append.1 hmem' with h1 | h2
    · rcases List.mem_append.1 h1 with hr | hxe
      · exact (hrestMem oomMsg hr).1 rfl
      · exact hext hxe
    · rw [List.mem_singleton] at h2
      exact absurd h2 (by decide)
  rw [hzero]

theorem C6_oom_message_exactly_once_witness :
    ∃ r, generate_failure_report "OutOfMemoryError" none (Except.error "e")
      = Except.ok r ∧ (reportLines r).count oomMsg = 1 :=
  C6_oom_message_exactly_once "OutOfMemoryError" none (Except.error "e")
    skippedMsg rfl (by decide) (by decide)
